import Mathlib

/-!
Shallow embedding of `extract_queries.py`: a translator from boolean search
expressions (operands combined with AND/OR and parentheses) into query strings
for four backends (SQL, MONGODB, ORM, ELASTICSEARCH).  Strings are modelled as
`List Char`; Python's `str.replace`, `str.strip`, slicing and scanning loops
are reproduced as executable Lean functions.  Recursions that Python bounds by
the shrinking input string are written with an explicit fuel argument equal to
the string length, so that every definition is structural and computes by
`decide` / `rfl`.
-/

/-- The whitespace set of Python's `str.strip()` (CPython's
`Py_UNICODE_ISSPACE`): the ASCII control whitespace `\t \n \v \f \r`, the
separator controls `\x1c`-`\x1f`, the space, and the Unicode space
characters NEL, NBSP, OGHAM SPACE MARK, the EN/EM-family spaces
`\u2000`-`\u200a`, LINE/PARAGRAPH SEPARATOR, NARROW NBSP, MMSP and
IDEOGRAPHIC SPACE. -/
def isPySpace (c : Char) : Bool :=
  [0x9, 0xa, 0xb, 0xc, 0xd, 0x1c, 0x1d, 0x1e, 0x1f, 0x20, 0x85, 0xa0,
    0x1680, 0x2000, 0x2001, 0x2002, 0x2003, 0x2004, 0x2005, 0x2006, 0x2007,
    0x2008, 0x2009, 0x200a, 0x2028, 0x2029, 0x202f, 0x205f,
    0x3000].contains c.toNat

/-- Python `s.strip()`: remove leading and trailing whitespace. -/
def pyStrip (s : List Char) : List Char :=
  ((s.dropWhile isPySpace).reverse.dropWhile isPySpace).reverse

/-- `beginsWith pat s` is true when `pat` is an initial segment of `s`. -/
def beginsWith : List Char → List Char → Bool
  | [], _ => true
  | _ :: _, [] => false
  | p :: ps, c :: cs => if p = c then beginsWith ps cs else false

/-- Fuel-driven worker for Python `str.replace`: scans left to right and
substitutes each non-overlapping occurrence of `old` by `new`.  The fuel is
always at least the length of the remaining string, so the `0` case for a
nonempty string is never reached from `pyReplace`. -/
def pyReplaceAux (old new : List Char) : Nat → List Char → List Char
  | _, [] => []
  | 0, s => s
  | fuel + 1, c :: rest =>
    if old ≠ [] ∧ beginsWith old (c :: rest) = true then
      new ++ pyReplaceAux old new fuel ((c :: rest).drop old.length)
    else
      c :: pyReplaceAux old new fuel rest

/-- Python `s.replace(old, new)`. -/
def pyReplace (old new s : List Char) : List Char :=
  pyReplaceAux old new s.length s

/-- Replacement of every occurrence of the single character `o` by `new`;
used to reason about the single-character `replace` calls of the source. -/
def replaceChar (o : Char) (new : List Char) : List Char → List Char
  | [] => []
  | c :: rest => (if c = o then new else [c]) ++ replaceChar o new rest

/-- `containsSeq pat s` is true when `pat` occurs contiguously inside `s`. -/
def containsSeq (pat : List Char) : List Char → Bool
  | [] => pat.isEmpty
  | c :: rest => beginsWith pat (c :: rest) || containsSeq pat rest

/-- The `Node` class of the source together with Python's `None`: `Node.none`
models the absence of a node (`left`/`right` initialised to `None`), and
`Node.mk value left right` models a `Node` object whose children may
themselves be `Node.none`.  A leaf is `Node.mk v Node.none Node.none`. -/
inductive Node where
  | none : Node
  | mk (value : List Char) (left right : Node) : Node
deriving DecidableEq, Repr

/-- `inorder` of the source: in-order traversal producing the SQL body.
Python's `if node and node.left:` selects the operator form exactly when the
left child is present; calling the function on `None` returns Python `None`,
which an enclosing f-string renders as `"None"`. -/
def inorder : Node → List Char
  | Node.none => "None".data
  | Node.mk v Node.none _ => " text like '%".data ++ v ++ "%'".data
  | Node.mk v l r =>
    "(".data ++ inorder l ++ " ".data ++ v ++ " ".data ++ inorder r ++ ")".data

/-- `inorder_orm` of the source: in-order traversal producing the ORM body. -/
def inorder_orm : Node → List Char
  | Node.none => "None".data
  | Node.mk v Node.none _ => "text__icontains='".data ++ v ++ "'".data
  | Node.mk v l r =>
    "Q(".data ++ inorder_orm l ++ ") ".data ++ v ++ " Q(".data ++
      inorder_orm r ++ ")".data

/-- `preorder` of the source: pre-order traversal producing the MongoDB body.
Literal braces are written with `\x7b` / `\x7d` escapes. -/
def preorder : Node → List Char
  | Node.none => "None".data
  | Node.mk v Node.none _ => "\x7b\"text\" : /.*".data ++ v ++ ".*/i\x7d".data
  | Node.mk v l r =>
    " $".data ++ v ++ " : [".data ++ preorder l ++ ", ".data ++
      preorder r ++ "]".data

/-- `preorder_elasticsearch` of the source: pre-order traversal producing the
ElasticSearch body. -/
def preorder_elasticsearch : Node → List Char
  | Node.none => "None".data
  | Node.mk v Node.none _ =>
    "\x7b\"match\" : \x7b \"text\" : \x7b\"".data ++ v ++ "\"\x7d \x7d ".data
  | Node.mk v l r =>
    " \x7b \"bool\" : \x7b ".data ++ v ++ " : [".data ++
      preorder_elasticsearch l ++ ", ".data ++
      preorder_elasticsearch r ++ "]\x7d \x7d".data

/-- The `BASE_QUERIES` dictionary (Python raises `KeyError` for other keys;
`create_query` is only ever reached with one of the four keys). -/
def baseQuery (qt : List Char) : List Char :=
  if qt = "SQL".data then "SELECT * FROM Resume WHERE ".data
  else if qt = "MONGODB".data then "\x7b".data
  else if qt = "ORM".data then []
  else if qt = "ELASTICSEARCH".data then " \"query\": ".data
  else []

/-- The `END_QUERIES` dictionary. -/
def endQuery (qt : List Char) : List Char :=
  if qt = "SQL".data then []
  else if qt = "MONGODB".data then "\x7d".data
  else if qt = "ORM".data then []
  else if qt = "ELASTICSEARCH".data then []
  else []

/-- `create_query` of the source: pick the traversal for the query type, apply
the post-hoc single-character substitutions, and wrap the result in the
backend envelope.  For `SQL` the traversal result is sliced `[1:-1]` before
the substitutions. -/
def create_query (root : Node) (query_type : List Char) : List Char :=
  let temp_query : List Char :=
    if query_type = "ORM".data then
      pyReplace "&".data ",".data (inorder_orm root)
    else if query_type = "ELASTICSEARCH".data then
      pyReplace "&".data "\"MUST\"".data
        (pyReplace "|".data "\"SHOULD\"".data (preorder_elasticsearch root))
    else if query_type = "SQL".data then
      pyReplace "&".data "AND".data
        (pyReplace "|".data "OR".data (((inorder root).drop 1).dropLast))
    else if query_type = "MONGODB".data then
      pyReplace "&".data "AND".data
        (pyReplace "|".data "OR".data (preorder root))
    else []
  baseQuery query_type ++ temp_query ++ endQuery query_type

/-- `generate_node` of the source: split at the first `|` (or, failing that,
the first `&`) and build an operator node over two operand leaves.  Python
would raise a `TypeError` if neither operator occurs; the only call site
guarantees one is present, and in that dead case this model splits at the end
of the string. -/
def generate_node (exp : List Char) : Node :=
  let idx := if '|' ∈ exp then exp.indexOf '|' else exp.indexOf '&'
  Node.mk (pyStrip ((exp.drop idx).take 1))
    (Node.mk (pyStrip (exp.take idx)) Node.none Node.none)
    (Node.mk (pyStrip (exp.drop (idx + 1))) Node.none Node.none)

/-- The scanning loop of `create_exp_tree`: walk the string tracking the
parenthesis depth `lopen`, and return the index (counted from offset `i`) of
the last `|` or `&` seen at depth `0` — the loop keeps overwriting its split,
so the final depth-0 operator wins. -/
def scanSplit : List Char → Int → Nat → Option Nat
  | [], _, _ => Option.none
  | c :: rest, lopen, i =>
    if c = '(' then scanSplit rest (lopen + 1) (i + 1)
    else if c = ')' then scanSplit rest (lopen - 1) (i + 1)
    else if (c = '|' ∨ c = '&') ∧ lopen = 0 then
      match scanSplit rest lopen (i + 1) with
      | Option.some j => Option.some j
      | Option.none => Option.some i
    else scanSplit rest lopen (i + 1)

/-- Fuel-driven worker for `create_exp_tree`.  Every recursive call of the
source strictly shrinks the string, so fuel equal to the string length
suffices; with enough fuel the `0` case only ever sees the empty string,
for which it returns the same leaf as the source. -/
def create_exp_treeAux : Nat → List Char → Node
  | 0, exp => Node.mk exp Node.none Node.none
  | fuel + 1, exp =>
    if ¬('|' ∈ exp ∨ '&' ∈ exp) then Node.mk exp Node.none Node.none
    else if exp.count '(' < 1 ∧ exp.getLast? = Option.some ')' then
      generate_node (exp.filter fun c => ¬(c = '(' ∨ c = ')'))
    else
      match scanSplit exp 0 0 with
      | Option.some i =>
        Node.mk ((exp.drop i).take 1)
          (create_exp_treeAux fuel (pyStrip (exp.take i)))
          (create_exp_treeAux fuel (pyStrip (exp.drop (i + 1))))
      | Option.none => create_exp_treeAux fuel ((exp.drop 1).dropLast)

/-- `create_exp_tree` of the source. -/
def create_exp_tree (exp : List Char) : Node :=
  create_exp_treeAux exp.length exp

/-- The normalisation performed inline by `generate_query`: the `value_dict`
replacements applied in dictionary (insertion) order — pad parentheses with
spaces, turn space-surrounded `OR`/`or`/`AND`/`and` into `|`/`&`, and delete
double quotes. -/
def normalizeExpr (exp : List Char) : List Char :=
  pyReplace "\"".data []
    (pyReplace " and ".data "&".data
      (pyReplace " AND ".data "&".data
        (pyReplace " or ".data "|".data
          (pyReplace " OR ".data "|".data
            (pyReplace ")".data " ) ".data
              (pyReplace "(".data " ( ".data exp))))))

/-- `generate_query` of the source: upper-case the query type, reject types
outside the four `BASE_QUERIES` keys with a fixed message, otherwise
normalise the expression, build the tree and emit the query.  Python's
`str.upper` is modelled by the ASCII `Char.toUpper`; the two agree on every
ASCII string, so theorems quantifying over the query type carry an ASCII
hypothesis (Python additionally maps some non-ASCII letters into ASCII,
e.g. `ſ` to `S`, which this model does not).  The `print` call of the
source is a side effect with no bearing on the returned value. -/
def generate_query (exp query_type : List Char) : List Char :=
  let qt := query_type.map Char.toUpper
  if ¬(qt = "SQL".data ∨ qt = "MONGODB".data ∨ qt = "ORM".data ∨
      qt = "ELASTICSEARCH".data) then
    "Invalid query type request. SQL, MONGODB, and ORM are only currently accepted query types".data
  else
    create_query (create_exp_tree (normalizeExpr exp)) qt

/-- An operator symbol of the canonical expression syntax. -/
def isOp (c : Char) : Prop := c = '|' ∨ c = '&'

/-- A character allowed in operand text: not an operator, not a parenthesis. -/
def plainChar (c : Char) : Bool :=
  !(c = '(' || c = ')' || c = '|' || c = '&')

/-- No parenthesis occurs in the string. -/
def parenFree (s : List Char) : Prop := ∀ c ∈ s, c ≠ '(' ∧ c ≠ ')'

/-- The first and last characters (when they exist) are not whitespace, so
Python's `strip` leaves the string unchanged. -/
def edgeOkB (s : List Char) : Bool :=
  (match s.head? with
    | Option.some c => !isPySpace c
    | Option.none => true) &&
  (match s.getLast? with
    | Option.some c => !isPySpace c
    | Option.none => true)

/-- A well-formed operand: only plain characters, and no whitespace at either
edge (so it is already in stripped form). -/
def goodOperand (x : List Char) : Prop :=
  (∀ c ∈ x, plainChar c = true) ∧ edgeOkB x = true

instance (c : Char) : Decidable (isOp c) := by
  unfold isOp
  infer_instance

instance (s : List Char) : Decidable (parenFree s) := by
  unfold parenFree
  infer_instance

instance (x : List Char) : Decidable (goodOperand x) := by
  unfold goodOperand
  infer_instance

/-- The canonical string of a flat operator chain: the first operand followed
by operator/operand pairs. -/
def chainStr (a : List Char) (rest : List (Char × List Char)) : List Char :=
  rest.foldl (fun s p => s ++ p.1 :: p.2) a

/-- The left-associative tree over the same chain: each operator/operand pair
combines the tree built so far with a fresh leaf on the right. -/
def leftAssocTree (a : List Char) (rest : List (Char × List Char)) : Node :=
  rest.foldl (fun t p => Node.mk [p.1] t (Node.mk p.2 Node.none Node.none))
    (Node.mk a Node.none Node.none)

/-- Well-formed expression trees: a leaf has no children, an operator node has
two well-formed children.  `Node.none` is not well-formed, so a node with
exactly one child is excluded. -/
inductive WF : Node → Prop where
  | leaf (v : List Char) : WF (Node.mk v Node.none Node.none)
  | op (v : List Char) (l r : Node) : WF l → WF r → WF (Node.mk v l r)

theorem pyReplaceAux_single (o : Char) (new : List Char) :
    ∀ fuel s, s.length ≤ fuel →
      pyReplaceAux [o] new fuel s = replaceChar o new s := by
  intro fuel
  induction fuel with
  | zero =>
    intro s hs
    have : s = [] := List.length_eq_zero.mp (Nat.le_zero.mp hs)
    subst this
    rfl
  | succ n ih =>
    intro s hs
    cases s with
    | nil => rfl
    | cons c rest =>
      have hlen : rest.length ≤ n := by simpa using hs
      by_cases hc : o = c
      · subst hc
        have hpre : [o] ≠ [] ∧ beginsWith [o] (o :: rest) = true := by
          refine ⟨by simp, ?_⟩
          simp [beginsWith]
        simp only [pyReplaceAux, if_pos hpre, replaceChar]
        simp [ih rest hlen]
      · have hbw : beginsWith [o] (c :: rest) = false := by
          simp [beginsWith, if_neg hc]
        have hpre : ¬([o] ≠ [] ∧ beginsWith [o] (c :: rest) = true) := by
          intro hh
          rw [hbw] at hh
          exact absurd hh.2 (by simp)
        simp only [pyReplaceAux, if_neg hpre]
        rw [show replaceChar o new (c :: rest) =
            (if c = o then new else [c]) ++ replaceChar o new rest from rfl,
          if_neg (fun h2 : c = o => hc h2.symm)]
        simp [ih rest hlen]

theorem pyReplace_single (o : Char) (new s : List Char) :
    pyReplace [o] new s = replaceChar o new s :=
  pyReplaceAux_single o new s.length s le_rfl

theorem replaceChar_append (o : Char) (new a b : List Char) :
    replaceChar o new (a ++ b) = replaceChar o new a ++ replaceChar o new b := by
  induction a with
  | nil => rfl
  | cons c rest ih => simp [replaceChar, ih]

theorem replaceChar_of_not_mem {o : Char} {s : List Char} (new : List Char)
    (h : o ∉ s) : replaceChar o new s = s := by
  induction s with
  | nil => rfl
  | cons c rest ih =>
    have hc : c ≠ o := fun he => h (he ▸ List.mem_cons_self c rest)
    have hrest : o ∉ rest := fun hm => h (List.mem_cons_of_mem c hm)
    simp [replaceChar, if_neg hc, ih hrest]

theorem not_mem_replaceChar {o : Char} {new : List Char} (s : List Char)
    (h : o ∉ new) : o ∉ replaceChar o new s := by
  induction s with
  | nil => simp [replaceChar]
  | cons c rest ih =>
    by_cases hc : c = o
    · simp only [replaceChar, if_pos hc]
      intro hm
      rcases List.mem_append.mp hm with h1 | h1
      · exact h h1
      · exact ih h1
    · simp only [replaceChar, if_neg hc]
      intro hm
      rcases List.mem_append.mp hm with h1 | h1
      · exact hc (List.mem_singleton.mp h1).symm
      · exact ih h1

theorem pyStrip_eq_of_edges {s : List Char} (h : edgeOkB s = true) :
    pyStrip s = s := by
  unfold edgeOkB at h
  rw [Bool.and_eq_true] at h
  have h1 : s.dropWhile isPySpace = s := by
    cases hs : s with
    | nil => rfl
    | cons c rest =>
      have : isPySpace c = false := by
        have := h.1
        rw [hs] at this
        simpa using this
      simp [List.dropWhile, this]
  unfold pyStrip
  rw [h1]
  have h2 : s.reverse.dropWhile isPySpace = s.reverse := by
    cases hr : s.reverse with
    | nil => rfl
    | cons c rest =>
      have hlast : s.getLast? = Option.some c := by
        rw [← List.head?_reverse, hr]
        rfl
      have : isPySpace c = false := by
        have := h.2
        rw [hlast] at this
        simpa using this
      simp [List.dropWhile, this]
  rw [h2, List.reverse_reverse]

theorem plainChar_spec {c : Char} (h : plainChar c = true) :
    c ≠ '(' ∧ c ≠ ')' ∧ c ≠ '|' ∧ c ≠ '&' := by
  simp only [plainChar, Bool.not_eq_true', Bool.or_eq_false_iff,
    decide_eq_false_iff_not] at h
  exact ⟨h.1.1.1, h.1.1.2, h.1.2, h.2⟩

theorem scanSplit_of_no_op :
    ∀ (s : List Char) (d : Int) (i : Nat),
      (∀ c ∈ s, ¬(c = '|' ∨ c = '&')) → scanSplit s d i = Option.none := by
  intro s
  induction s with
  | nil => intro d i _; rfl
  | cons c rest ih =>
    intro d i h
    have hc := h c (List.mem_cons_self c rest)
    have hrest : ∀ x ∈ rest, ¬(x = '|' ∨ x = '&') :=
      fun x hx => h x (List.mem_cons_of_mem c hx)
    by_cases h1 : c = '('
    · simp [scanSplit, h1, ih _ _ hrest]
    · by_cases h2 : c = ')'
      · simp [scanSplit, h1, h2, ih _ _ hrest]
      · have h3 : ¬((c = '|' ∨ c = '&') ∧ d = 0) := fun hh => hc hh.1
        simp [scanSplit, h1, h2, h3, ih _ _ hrest]

theorem scanSplit_lt :
    ∀ (s : List Char) (d : Int) (i j : Nat),
      scanSplit s d i = Option.some j → j < i + s.length := by
  intro s
  induction s with
  | nil => intro d i j h; cases h
  | cons c rest ih =>
    intro d i j h
    simp only [scanSplit] at h
    by_cases h1 : c = '('
    · rw [if_pos h1] at h
      have := ih _ _ _ h
      simp only [List.length_cons]
      omega
    · rw [if_neg h1] at h
      by_cases h2 : c = ')'
      · rw [if_pos h2] at h
        have := ih _ _ _ h
        simp only [List.length_cons]
        omega
      · rw [if_neg h2] at h
        by_cases h3 : (c = '|' ∨ c = '&') ∧ d = 0
        · rw [if_pos h3] at h
          cases hm : scanSplit rest d (i + 1) with
          | none =>
            rw [hm] at h
            have : i = j := by simpa using h
            simp only [List.length_cons]
            omega
          | some k =>
            rw [hm] at h
            have hk : k = j := by simpa using h
            have := ih _ _ _ hm
            simp only [List.length_cons]
            omega
        · rw [if_neg h3] at h
          have := ih _ _ _ h
          simp only [List.length_cons]
          omega

theorem scanSplit_last :
    ∀ (u : List Char) (o : Char) (y : List Char) (i : Nat),
      parenFree u → isOp o → (∀ c ∈ y, plainChar c = true) →
      scanSplit (u ++ o :: y) 0 i = Option.some (i + u.length) := by
  intro u
  induction u with
  | nil =>
    intro o y i _ ho hy
    have hnone : scanSplit y 0 (i + 1) = Option.none := by
      refine scanSplit_of_no_op y 0 (i + 1) fun c hc => ?_
      have := plainChar_spec (hy c hc)
      tauto
    rw [List.nil_append]
    rcases ho with h | h <;> subst h <;> simp [scanSplit, hnone]
  | cons c u' ih =>
    intro o y i hu ho hy
    have hc := hu c (List.mem_cons_self _ _)
    have hu' : parenFree u' := fun x hx => hu x (List.mem_cons_of_mem _ hx)
    have hrec := ih o y (i + 1) hu' ho hy
    by_cases hop : c = '|' ∨ c = '&'
    · rcases hop with h | h <;> subst h <;>
        simp [scanSplit, hrec, List.length_cons] <;> omega
    · have h3 : ¬((c = '|' ∨ c = '&') ∧ (0 : Int) = 0) := fun hh => hop hh.1
      simp [List.cons_append, scanSplit, if_neg hc.1, if_neg hc.2, h3, hrec,
        List.length_cons]
      omega

theorem pyStrip_length_le (s : List Char) : (pyStrip s).length ≤ s.length := by
  unfold pyStrip
  calc ((s.dropWhile isPySpace).reverse.dropWhile isPySpace).reverse.length
      = ((s.dropWhile isPySpace).reverse.dropWhile isPySpace).length := by
        rw [List.length_reverse]
    _ ≤ (s.dropWhile isPySpace).reverse.length :=
        (List.dropWhile_sublist _).length_le
    _ = (s.dropWhile isPySpace).length := by rw [List.length_reverse]
    _ ≤ s.length := (List.dropWhile_sublist _).length_le

theorem aux_leaf {fuel : Nat} {exp : List Char}
    (h : ¬('|' ∈ exp ∨ '&' ∈ exp)) :
    create_exp_treeAux fuel exp = Node.mk exp Node.none Node.none := by
  cases fuel with
  | zero => rfl
  | succ n => simp only [create_exp_treeAux, if_pos h]

theorem aux_gen {fuel : Nat} {exp : List Char}
    (h1 : '|' ∈ exp ∨ '&' ∈ exp)
    (h2 : exp.count '(' < 1 ∧ exp.getLast? = Option.some ')') :
    create_exp_treeAux (fuel + 1) exp =
      generate_node (exp.filter fun c => ¬(c = '(' ∨ c = ')')) := by
  simp only [create_exp_treeAux]
  rw [if_neg (not_not_intro h1), if_pos h2]

theorem aux_split {fuel : Nat} {exp : List Char} {i : Nat}
    (h1 : '|' ∈ exp ∨ '&' ∈ exp)
    (h2 : ¬(exp.count '(' < 1 ∧ exp.getLast? = Option.some ')'))
    (hs : scanSplit exp 0 0 = Option.some i) :
    create_exp_treeAux (fuel + 1) exp =
      Node.mk ((exp.drop i).take 1)
        (create_exp_treeAux fuel (pyStrip (exp.take i)))
        (create_exp_treeAux fuel (pyStrip (exp.drop (i + 1)))) := by
  simp only [create_exp_treeAux]
  rw [if_neg (not_not_intro h1), if_neg h2, hs]

theorem aux_collapse {fuel : Nat} {exp : List Char}
    (h1 : '|' ∈ exp ∨ '&' ∈ exp)
    (h2 : ¬(exp.count '(' < 1 ∧ exp.getLast? = Option.some ')'))
    (hs : scanSplit exp 0 0 = Option.none) :
    create_exp_treeAux (fuel + 1) exp =
      create_exp_treeAux fuel ((exp.drop 1).dropLast) := by
  simp only [create_exp_treeAux]
  rw [if_neg (not_not_intro h1), if_neg h2, hs]

theorem aux_succ :
    ∀ (fuel : Nat) (s : List Char), s.length ≤ fuel →
      create_exp_treeAux (fuel + 1) s = create_exp_treeAux fuel s := by
  intro fuel
  induction fuel with
  | zero =>
    intro s hs
    have : s = [] := List.length_eq_zero.mp (Nat.le_zero.mp hs)
    subst this
    rw [aux_leaf (by simp)]
    rfl
  | succ n ih =>
    intro s hs
    by_cases hop : '|' ∈ s ∨ '&' ∈ s
    · have hne : s ≠ [] := by
        rcases hop with h | h
        · exact List.ne_nil_of_mem h
        · exact List.ne_nil_of_mem h
      have hpos : 1 ≤ s.length := List.length_pos.mpr hne
      by_cases hbr : s.count '(' < 1 ∧ s.getLast? = Option.some ')'
      · rw [aux_gen hop hbr, aux_gen hop hbr]
      · cases hsplit : scanSplit s 0 0 with
        | some i =>
          rw [aux_split hop hbr hsplit, aux_split hop hbr hsplit]
          have hi : i < s.length := by simpa using scanSplit_lt s 0 0 i hsplit
          have hl : (pyStrip (s.take i)).length ≤ n := by
            have := pyStrip_length_le (s.take i)
            have ht : (s.take i).length ≤ i := by
              simp [List.length_take]
            omega
          have hr : (pyStrip (s.drop (i + 1))).length ≤ n := by
            have := pyStrip_length_le (s.drop (i + 1))
            have ht : (s.drop (i + 1)).length = s.length - (i + 1) := by
              simp [List.length_drop]
            omega
          rw [ih _ hl, ih _ hr]
        | none =>
          rw [aux_collapse hop hbr hsplit, aux_collapse hop hbr hsplit]
          have hlen : ((s.drop 1).dropLast).length ≤ n := by
            simp only [List.length_dropLast, List.length_drop]
            omega
          exact ih _ hlen
    · rw [aux_leaf hop, aux_leaf hop]

theorem aux_of_le_zero :
    ∀ (d : Nat) (s : List Char),
      create_exp_treeAux (s.length + d) s = create_exp_tree s := by
  intro d
  induction d with
  | zero => intro s; rfl
  | succ k ih =>
    intro s
    rw [show s.length + (k + 1) = (s.length + k) + 1 from rfl,
      aux_succ _ _ (by omega), ih]

theorem aux_eq_tree {fuel : Nat} {s : List Char} (h : s.length ≤ fuel) :
    create_exp_treeAux fuel s = create_exp_tree s := by
  have := aux_of_le_zero (fuel - s.length) s
  rwa [Nat.add_sub_cancel' h] at this

theorem create_exp_tree_of_no_op {s : List Char}
    (h : ¬('|' ∈ s ∨ '&' ∈ s)) :
    create_exp_tree s = Node.mk s Node.none Node.none :=
  aux_leaf h

theorem edgeOkB_head {s : List Char} {c : Char} (h : edgeOkB s = true)
    (hc : s.head? = Option.some c) : isPySpace c = false := by
  unfold edgeOkB at h
  rw [Bool.and_eq_true] at h
  have := h.1
  rw [hc] at this
  simpa using this

theorem edgeOkB_last {s : List Char} {c : Char} (h : edgeOkB s = true)
    (hc : s.getLast? = Option.some c) : isPySpace c = false := by
  unfold edgeOkB at h
  rw [Bool.and_eq_true] at h
  have := h.2
  rw [hc] at this
  simpa using this

theorem edgeOkB_intro {s : List Char}
    (h1 : ∀ c, s.head? = Option.some c → isPySpace c = false)
    (h2 : ∀ c, s.getLast? = Option.some c → isPySpace c = false) :
    edgeOkB s = true := by
  unfold edgeOkB
  rw [Bool.and_eq_true]
  constructor
  · cases hh : s.head? with
    | none => rfl
    | some c => simpa using h1 c hh
  · cases hh : s.getLast? with
    | none => rfl
    | some c => simpa using h2 c hh

theorem goodOperand_no_op {x : List Char} (h : goodOperand x) :
    ¬('|' ∈ x ∨ '&' ∈ x) := by
  rintro (hm | hm) <;> have := plainChar_spec (h.1 _ hm) <;> tauto

/-- The combined invariant carried along a flat chain: no parentheses, and no
whitespace at either edge. -/
def chainInv (s : List Char) : Prop := parenFree s ∧ edgeOkB s = true

theorem goodOperand_chainInv {x : List Char} (h : goodOperand x) :
    chainInv x := by
  refine ⟨fun c hc => ?_, h.2⟩
  have := plainChar_spec (h.1 c hc)
  exact ⟨this.1, this.2.1⟩

theorem isOp_not_space {o : Char} (ho : isOp o) : isPySpace o = false := by
  rcases ho with h | h <;> subst h <;> decide

theorem isOp_ne_paren {o : Char} (ho : isOp o) : o ≠ '(' ∧ o ≠ ')' := by
  rcases ho with h | h <;> subst h <;> exact ⟨by decide, by decide⟩

theorem chainInv_extend {s : List Char} {o : Char} {y : List Char}
    (hs : chainInv s) (ho : isOp o) (hy : goodOperand y) :
    chainInv (s ++ o :: y) := by
  constructor
  · intro c hc
    rcases List.mem_append.mp hc with hcs | hcy
    · exact hs.1 c hcs
    · rcases List.mem_cons.mp hcy with rfl | hcy
      · exact isOp_ne_paren ho
      · have := plainChar_spec (hy.1 c hcy)
        exact ⟨this.1, this.2.1⟩
  · refine edgeOkB_intro ?_ ?_
    · intro c hc
      cases s with
      | nil =>
        have hco := hc
        simp at hco
        subst hco
        exact isOp_not_space ho
      | cons d s' =>
        have hd := hc
        simp at hd
        subst hd
        exact edgeOkB_head hs.2 rfl
    · intro c hc
      rcases List.eq_nil_or_concat y with rfl | ⟨ys, a, rfl⟩
      · rw [List.getLast?_concat] at hc
        have hco := hc
        simp at hco
        subst hco
        exact isOp_not_space ho
      · simp only [List.concat_eq_append] at hy hc
        have hshape : s ++ o :: (ys ++ [a]) = (s ++ o :: ys) ++ [a] := by
          simp
        rw [hshape, List.getLast?_concat] at hc
        have hca := hc
        simp at hca
        subst hca
        exact edgeOkB_last hy.2 (List.getLast?_concat _)

theorem chainStr_cons (a : List Char) (p : Char × List Char)
    (rest : List (Char × List Char)) :
    chainStr a (p :: rest) = chainStr (a ++ p.1 :: p.2) rest := rfl

theorem chainStr_concat (a : List Char) (rest : List (Char × List Char))
    (o : Char) (y : List Char) :
    chainStr a (rest ++ [(o, y)]) = chainStr a rest ++ o :: y := by
  unfold chainStr
  rw [List.foldl_append]
  rfl

theorem leftAssocTree_concat (a : List Char) (rest : List (Char × List Char))
    (o : Char) (y : List Char) :
    leftAssocTree a (rest ++ [(o, y)]) =
      Node.mk [o] (leftAssocTree a rest) (Node.mk y Node.none Node.none) := by
  unfold leftAssocTree
  rw [List.foldl_append]
  rfl

theorem chainInv_chain :
    ∀ (rest : List (Char × List Char)) (a : List Char), chainInv a →
      (∀ p ∈ rest, isOp p.1 ∧ goodOperand p.2) → chainInv (chainStr a rest) := by
  intro rest
  induction rest with
  | nil => intro a ha _; exact ha
  | cons p rest ih =>
    intro a ha hrest
    rw [chainStr_cons]
    refine ih _ ?_ fun q hq => hrest q (List.mem_cons_of_mem p hq)
    have hp := hrest p (List.mem_cons_self p rest)
    exact chainInv_extend ha hp.1 hp.2

theorem tree_split {u : List Char} {o : Char} {y : List Char}
    (hu : parenFree u) (ho : isOp o) (hy : ∀ c ∈ y, plainChar c = true) :
    create_exp_tree (u ++ o :: y) =
      Node.mk [o] (create_exp_tree (pyStrip u)) (create_exp_tree (pyStrip y)) := by
  have hmem : o ∈ u ++ o :: y :=
    List.mem_append.mpr (Or.inr (List.mem_cons_self _ _))
  have hop : '|' ∈ u ++ o :: y ∨ '&' ∈ u ++ o :: y := by
    rcases ho with h | h
    · exact Or.inl (h ▸ hmem)
    · exact Or.inr (h ▸ hmem)
  have hlast : (u ++ o :: y).getLast? ≠ Option.some ')' := by
    rcases List.eq_nil_or_concat y with rfl | ⟨ys, a, rfl⟩
    · rw [List.getLast?_concat]
      intro hh
      have : o = ')' := by simpa using hh
      exact (isOp_ne_paren ho).2 this
    · simp only [List.concat_eq_append] at hy ⊢
      have hshape : u ++ o :: (ys ++ [a]) = (u ++ o :: ys) ++ [a] := by simp
      rw [hshape, List.getLast?_concat]
      intro hh
      have ha : a = ')' := by simpa using hh
      have := plainChar_spec (hy a (by simp))
      exact this.2.1 ha
  have h2 : ¬((u ++ o :: y).count '(' < 1 ∧
      (u ++ o :: y).getLast? = Option.some ')') := fun hh => hlast hh.2
  have hs : scanSplit (u ++ o :: y) 0 0 = Option.some u.length := by
    simpa using scanSplit_last u o y 0 hu ho hy
  have hlen : (u ++ o :: y).length = (u.length + y.length) + 1 := by
    simp [List.length_append, List.length_cons]
    omega
  unfold create_exp_tree
  rw [hlen, aux_split hop h2 hs]
  have htake : (u ++ o :: y).take u.length = u := List.take_left u (o :: y)
  have hdropo : (u ++ o :: y).drop u.length = o :: y := List.drop_left u (o :: y)
  have hdrop : (u ++ o :: y).drop (u.length + 1) = y := by
    rw [← List.drop_drop, hdropo]
    rfl
  rw [htake, hdropo, hdrop]
  rw [aux_eq_tree (le_trans (pyStrip_length_le u) (by omega)),
    aux_eq_tree (le_trans (pyStrip_length_le y) (by omega))]
  rfl

theorem create_exp_tree_chain :
    ∀ (rest : List (Char × List Char)) (a : List Char), goodOperand a →
      (∀ p ∈ rest, isOp p.1 ∧ goodOperand p.2) →
      create_exp_tree (chainStr a rest) = leftAssocTree a rest := by
  intro rest
  induction rest using List.reverseRecOn with
  | nil =>
    intro a ha _
    exact create_exp_tree_of_no_op (goodOperand_no_op ha)
  | append_singleton rest p ih =>
    intro a ha hrest
    obtain ⟨o, y⟩ := p
    have hmem : ∀ q ∈ rest, isOp q.1 ∧ goodOperand q.2 :=
      fun q hq => hrest q (List.mem_append.mpr (Or.inl hq))
    have hoy : isOp o ∧ goodOperand y :=
      hrest (o, y) (List.mem_append.mpr (Or.inr (by simp)))
    have hinv : chainInv (chainStr a rest) :=
      chainInv_chain rest a (goodOperand_chainInv ha) hmem
    rw [chainStr_concat, leftAssocTree_concat,
      tree_split hinv.1 hoy.1 hoy.2.1,
      pyStrip_eq_of_edges hinv.2, pyStrip_eq_of_edges hoy.2.2,
      ih a ha hmem,
      create_exp_tree_of_no_op (goodOperand_no_op hoy.2)]

/-- The global substitution applied by `create_query` for the SQL and MongoDB
backends: `|` becomes `OR`, then `&` becomes `AND`. -/
def sqlSubst (s : List Char) : List Char :=
  replaceChar '&' "AND".data (replaceChar '|' "OR".data s)

/-- The global substitution applied by `create_query` for the ElasticSearch
backend: `|` becomes `"SHOULD"`, then `&` becomes `"MUST"`. -/
def esSubst (s : List Char) : List Char :=
  replaceChar '&' "\"MUST\"".data (replaceChar '|' "\"SHOULD\"".data s)

theorem sqlSubst_append (a b : List Char) :
    sqlSubst (a ++ b) = sqlSubst a ++ sqlSubst b := by
  unfold sqlSubst
  rw [replaceChar_append, replaceChar_append]

/-- The relational body rendering described by the (amended) specification:
an in-order traversal where an operator node becomes
`(<left> <OP> <right>)` with the operator symbol substituted to the literal
`AND`/`OR` keyword, and a leaf becomes a ` text like '%<operand>%'`
predicate (the substitution also touching operand text). -/
def sqlRender : Node → List Char
  | Node.none => "None".data
  | Node.mk v Node.none _ => " text like '%".data ++ sqlSubst v ++ "%'".data
  | Node.mk v l r =>
    "(".data ++ sqlRender l ++ " ".data ++ sqlSubst v ++ " ".data ++
      sqlRender r ++ ")".data

theorem sqlSubst_inorder : ∀ n : Node, sqlSubst (inorder n) = sqlRender n := by
  intro n
  induction n with
  | none => decide
  | mk v l r ihl ihr =>
    cases l with
    | none =>
      simp only [inorder, sqlRender, sqlSubst_append]
      rw [show sqlSubst " text like '%".data = " text like '%".data from by
          decide,
        show sqlSubst "%'".data = "%'".data from by decide]
    | mk lv ll lr =>
      simp only [inorder, sqlRender, sqlSubst_append]
      rw [show sqlSubst "(".data = "(".data from by decide,
        show sqlSubst " ".data = " ".data from by decide,
        show sqlSubst ")".data = ")".data from by decide, ihl, ihr]

theorem create_query_SQL (root : Node) :
    create_query root "SQL".data =
      "SELECT * FROM Resume WHERE ".data ++
        sqlSubst (((inorder root).drop 1).dropLast) := by
  have h : create_query root "SQL".data =
      "SELECT * FROM Resume WHERE ".data ++
        (pyReplace "&".data "AND".data
          (pyReplace "|".data "OR".data
            (((inorder root).drop 1).dropLast))) ++ [] := rfl
  rw [h, List.append_nil,
    show ("|".data : List Char) = ['|'] from rfl,
    show ("&".data : List Char) = ['&'] from rfl,
    pyReplace_single, pyReplace_single]
  rfl

theorem create_query_MONGODB (root : Node) :
    create_query root "MONGODB".data =
      "\x7b".data ++ sqlSubst (preorder root) ++ "\x7d".data := by
  have h : create_query root "MONGODB".data =
      "\x7b".data ++
        (pyReplace "&".data "AND".data
          (pyReplace "|".data "OR".data (preorder root))) ++ "\x7d".data := rfl
  rw [h,
    show ("|".data : List Char) = ['|'] from rfl,
    show ("&".data : List Char) = ['&'] from rfl,
    pyReplace_single, pyReplace_single]
  rfl

theorem create_query_ORM (root : Node) :
    create_query root "ORM".data =
      replaceChar '&' ",".data (inorder_orm root) := by
  have h : create_query root "ORM".data =
      [] ++ (pyReplace "&".data ",".data (inorder_orm root)) ++ [] := rfl
  rw [h, List.append_nil, List.nil_append,
    show ("&".data : List Char) = ['&'] from rfl, pyReplace_single]

theorem create_query_ES (root : Node) :
    create_query root "ELASTICSEARCH".data =
      " \"query\": ".data ++ esSubst (preorder_elasticsearch root) := by
  have h : create_query root "ELASTICSEARCH".data =
      " \"query\": ".data ++
        (pyReplace "&".data "\"MUST\"".data
          (pyReplace "|".data "\"SHOULD\"".data
            (preorder_elasticsearch root))) ++ [] := rfl
  rw [h, List.append_nil,
    show ("|".data : List Char) = ['|'] from rfl,
    show ("&".data : List Char) = ['&'] from rfl,
    pyReplace_single, pyReplace_single]
  rfl

theorem sqlSubst_of_no_op {s : List Char} (h1 : '|' ∉ s) (h2 : '&' ∉ s) :
    sqlSubst s = s := by
  unfold sqlSubst
  rw [replaceChar_of_not_mem _ h1, replaceChar_of_not_mem _ h2]

theorem esSubst_append (a b : List Char) :
    esSubst (a ++ b) = esSubst a ++ esSubst b := by
  unfold esSubst
  rw [replaceChar_append, replaceChar_append]

theorem esSubst_of_no_op {s : List Char} (h1 : '|' ∉ s) (h2 : '&' ∉ s) :
    esSubst s = s := by
  unfold esSubst
  rw [replaceChar_of_not_mem _ h1, replaceChar_of_not_mem _ h2]

theorem aux_WF : ∀ (fuel : Nat) (s : List Char), WF (create_exp_treeAux fuel s) := by
  intro fuel
  induction fuel with
  | zero => intro s; exact WF.leaf s
  | succ n ih =>
    intro s
    by_cases hop : '|' ∈ s ∨ '&' ∈ s
    · by_cases hbr : s.count '(' < 1 ∧ s.getLast? = Option.some ')'
      · rw [aux_gen hop hbr]
        exact WF.op _ _ _ (WF.leaf _) (WF.leaf _)
      · cases hsplit : scanSplit s 0 0 with
        | some i =>
          rw [aux_split hop hbr hsplit]
          exact WF.op _ _ _ (ih _) (ih _)
        | none =>
          rw [aux_collapse hop hbr hsplit]
          exact ih _
    · rw [aux_leaf hop]
      exact WF.leaf s

theorem pyReplaceAux_of_not_contains (old new : List Char) :
    ∀ (fuel : Nat) (s : List Char), containsSeq old s = false →
      pyReplaceAux old new fuel s = s := by
  intro fuel
  induction fuel with
  | zero => intro s _; cases s <;> rfl
  | succ n ih =>
    intro s h
    cases s with
    | nil => rfl
    | cons c rest =>
      simp only [containsSeq, Bool.or_eq_false_iff] at h
      have hcond : ¬(old ≠ [] ∧ beginsWith old (c :: rest) = true) := by
        intro hh
        rw [h.1] at hh
        exact absurd hh.2 (by simp)
      simp only [pyReplaceAux, if_neg hcond]
      rw [ih rest h.2]

theorem pyReplace_of_not_contains {old : List Char} (new : List Char)
    {s : List Char} (h : containsSeq old s = false) :
    pyReplace old new s = s :=
  pyReplaceAux_of_not_contains old new s.length s h

/-!
Claim theorems.  Each claim of the specification review is settled by exactly
one theorem below (plus a witness for theorems with hypotheses, and a
counterexample theorem for corrected claims).
-/

/-- Claim C1 (code behaviour at the claimed failing input): the source has no
`MalformedExpression` path at all — on the unbalanced input `"(A AND B"` the
builder silently collapses the string to a single leaf `" A"` and
`generate_query` returns a (truncated) SQL query instead of failing. -/
theorem claim_c1_no_malformed_error :
    create_exp_tree (normalizeExpr "(A AND B".data) =
      Node.mk " A".data Node.none Node.none ∧
    generate_query "(A AND B".data "SQL".data =
      "SELECT * FROM Resume WHERE text like '% A%".data := by
  exact ⟨by decide, by decide⟩

/-- Claim C2: for a flat chain of three or more operands joined by depth-0
operators, the builder splits at the right-most depth-0 operator — the right
child of the root is a single leaf holding the last operand and the left
child is the tree built from everything before that operator — and the
resulting tree is the left-associative grouping of the chain. -/
theorem claim_c2_left_assoc (a b z : List Char) (o1 oz : Char)
    (mid : List (Char × List Char))
    (ha : goodOperand a) (hb : goodOperand b) (hz : goodOperand z)
    (ho1 : isOp o1) (hoz : isOp oz)
    (hmid : ∀ p ∈ mid, isOp p.1 ∧ goodOperand p.2) :
    create_exp_tree (chainStr a ((o1, b) :: mid ++ [(oz, z)])) =
      Node.mk [oz] (create_exp_tree (chainStr a ((o1, b) :: mid)))
        (Node.mk z Node.none Node.none) ∧
    create_exp_tree (chainStr a ((o1, b) :: mid ++ [(oz, z)])) =
      leftAssocTree a ((o1, b) :: mid ++ [(oz, z)]) := by
  have hall : ∀ p ∈ (o1, b) :: mid ++ [(oz, z)], isOp p.1 ∧ goodOperand p.2 := by
    intro p hp
    rcases List.mem_cons.mp hp with rfl | hp
    · exact ⟨ho1, hb⟩
    · rcases List.mem_append.mp hp with hp | hp
      · exact hmid p hp
      · have := List.mem_singleton.mp hp
        subst this
        exact ⟨hoz, hz⟩
  have hpre : ∀ p ∈ (o1, b) :: mid, isOp p.1 ∧ goodOperand p.2 := by
    intro p hp
    rcases List.mem_cons.mp hp with rfl | hp
    · exact ⟨ho1, hb⟩
    · exact hmid p hp
  constructor
  · rw [show (o1, b) :: mid ++ [(oz, z)] = ((o1, b) :: mid) ++ [(oz, z)]
      from rfl, chainStr_concat]
    have hinv : chainInv (chainStr a ((o1, b) :: mid)) :=
      chainInv_chain _ a (goodOperand_chainInv ha) hpre
    rw [tree_split hinv.1 hoz hz.1, pyStrip_eq_of_edges hinv.2,
      pyStrip_eq_of_edges hz.2, create_exp_tree_of_no_op (goodOperand_no_op hz)]
  · exact create_exp_tree_chain _ a ha hall

/-- Claim C2 witness: the chain `A&B&C` produces the left-associative tree
`(A & B) & C` with the leaf `C` as right child of the root. -/
theorem claim_c2_left_assoc_witness :
    goodOperand "A".data ∧
    (create_exp_tree (chainStr "A".data [('&', "B".data), ('&', "C".data)]) =
      Node.mk ['&'] (create_exp_tree (chainStr "A".data [('&', "B".data)]))
        (Node.mk "C".data Node.none Node.none) ∧
    create_exp_tree (chainStr "A".data [('&', "B".data), ('&', "C".data)]) =
      leftAssocTree "A".data [('&', "B".data), ('&', "C".data)]) :=
  ⟨by decide,
    claim_c2_left_assoc "A".data "B".data "C".data '&' '&' []
      (by decide) (by decide) (by decide) (by decide) (by decide)
      (by decide)⟩

/-- Claim C8: `generate_query` is a pure function of its two arguments — the
embedding of the pipeline carries no state between invocations, so two calls
with identical arguments denote the same string. -/
theorem claim_c8_deterministic (exp query_type : List Char) :
    generate_query exp query_type = generate_query exp query_type := rfl

/-- Claim C9: every tree produced by the builder is well-formed — each node
has either both children present or both absent, recursively. -/
theorem claim_c9_well_formed (exp : List Char) : WF (create_exp_tree exp) :=
  aux_WF exp.length exp

/-- Claim C10 counterexample: in the input `x AND(y)` the keyword `AND` is
not flanked by single spaces (a parenthesis follows it), yet normalisation
does not leave it in place: the parentheses are padded with spaces first, so
the keyword is converted to the `&` operator. -/
theorem claim_c10_counterexample :
    normalizeExpr "x AND(y)".data = "x&( y ) ".data ∧
    containsSeq "AND".data (normalizeExpr "x AND(y)".data) = false := by
  exact ⟨by decide, by decide⟩

/-- Claim C10 (amended): normalisation deletes every double quote and
recognises the operator keywords only in the four exact-case
space-surrounded forms — universally, any expression containing no
parenthesis, no double quote and no occurrence of ` OR `, ` or `, ` AND ` or
` and ` passes through normalisation unchanged, so any other casing
(` AnD `, ` oR `) or an unflanked keyword (`xANDy`) remains operand text.
The exact forms are converted to the `|`/`&` operator symbols, and — because
parentheses are padded with spaces before the keyword pass — an exact-case
keyword adjacent to a parenthesis is also converted. -/
theorem claim_c10_normalization (exp : List Char)
    (h1 : containsSeq "(".data exp = false)
    (h2 : containsSeq ")".data exp = false)
    (h3 : containsSeq "\"".data exp = false)
    (h4 : containsSeq " OR ".data exp = false)
    (h5 : containsSeq " or ".data exp = false)
    (h6 : containsSeq " AND ".data exp = false)
    (h7 : containsSeq " and ".data exp = false) :
    normalizeExpr exp = exp ∧
    (∀ e : List Char, '"' ∉ normalizeExpr e) ∧
    normalizeExpr "a AND b".data = "a&b".data ∧
    normalizeExpr "a and b".data = "a&b".data ∧
    normalizeExpr "a OR b".data = "a|b".data ∧
    normalizeExpr "a or b".data = "a|b".data ∧
    normalizeExpr "x AND(y)".data = "x&( y ) ".data := by
  refine ⟨?_, ?_, by decide, by decide, by decide, by decide, by decide⟩
  · unfold normalizeExpr
    rw [pyReplace_of_not_contains _ h1, pyReplace_of_not_contains _ h2,
      pyReplace_of_not_contains _ h4, pyReplace_of_not_contains _ h5,
      pyReplace_of_not_contains _ h6, pyReplace_of_not_contains _ h7,
      pyReplace_of_not_contains _ h3]
  · intro e
    unfold normalizeExpr
    rw [show ("\"".data : List Char) = ['"'] from rfl, pyReplace_single]
    exact not_mem_replaceChar _ (by simp)

/-- Claim C10 witness: the differently-cased keyword ` AnD ` is not
recognised — the expression passes through normalisation unchanged. -/
theorem claim_c10_normalization_witness :
    containsSeq " AND ".data "a AnD b".data = false ∧
    (normalizeExpr "a AnD b".data = "a AnD b".data ∧
    (∀ e : List Char, '"' ∉ normalizeExpr e) ∧
    normalizeExpr "a AND b".data = "a&b".data ∧
    normalizeExpr "a and b".data = "a&b".data ∧
    normalizeExpr "a OR b".data = "a|b".data ∧
    normalizeExpr "a or b".data = "a|b".data ∧
    normalizeExpr "x AND(y)".data = "x&( y ) ".data) :=
  ⟨by decide,
    claim_c10_normalization "a AnD b".data (by decide) (by decide) (by decide)
      (by decide) (by decide) (by decide) (by decide)⟩

/-- Claim C4 counterexample: the rejection message for an unsupported backend
names only SQL, MONGODB and ORM — `ELASTICSEARCH`, the fourth accepted
backend, is missing from it. -/
theorem claim_c4_counterexample :
    generate_query "A".data "XML".data =
      "Invalid query type request. SQL, MONGODB, and ORM are only currently accepted query types".data ∧
    containsSeq "ELASTICSEARCH".data (generate_query "A".data "XML".data) =
      false := by
  exact ⟨by decide, by decide⟩

/-- Claim C4 (amended): the backend identifier is upper-cased and any ASCII
identifier outside the four recognised backends yields, for every expression
(so without any parsing or emission), the fixed non-fatal message — which
enumerates only three of the four accepted backends, omitting
`ELASTICSEARCH`.  The ASCII hypothesis confines the statement to the domain
on which the modelled case mapping coincides exactly with Python's
`str.upper` (Python also maps a few non-ASCII letters into ASCII, e.g. `ſ`
to `S`, so a non-ASCII spelling of an accepted backend is outside this
claim). -/
theorem claim_c4_unsupported_backend (exp qt : List Char)
    (_hascii : ∀ c ∈ qt, c.toNat < 128)
    (h : ¬(qt.map Char.toUpper = "SQL".data ∨
        qt.map Char.toUpper = "MONGODB".data ∨
        qt.map Char.toUpper = "ORM".data ∨
        qt.map Char.toUpper = "ELASTICSEARCH".data)) :
    generate_query exp qt =
      "Invalid query type request. SQL, MONGODB, and ORM are only currently accepted query types".data ∧
    containsSeq "SQL".data
      "Invalid query type request. SQL, MONGODB, and ORM are only currently accepted query types".data = true ∧
    containsSeq "MONGODB".data
      "Invalid query type request. SQL, MONGODB, and ORM are only currently accepted query types".data = true ∧
    containsSeq "ORM".data
      "Invalid query type request. SQL, MONGODB, and ORM are only currently accepted query types".data = true ∧
    containsSeq "ELASTICSEARCH".data
      "Invalid query type request. SQL, MONGODB, and ORM are only currently accepted query types".data = false := by
  refine ⟨?_, by decide, by decide, by decide, by decide⟩
  have hu : generate_query exp qt =
      if ¬(qt.map Char.toUpper = "SQL".data ∨
          qt.map Char.toUpper = "MONGODB".data ∨
          qt.map Char.toUpper = "ORM".data ∨
          qt.map Char.toUpper = "ELASTICSEARCH".data) then
        "Invalid query type request. SQL, MONGODB, and ORM are only currently accepted query types".data
      else
        create_query (create_exp_tree (normalizeExpr exp))
          (qt.map Char.toUpper) := rfl
  rw [hu, if_pos h]

/-- Claim C4 witness: the backend identifier `XML` is rejected with the fixed
message. -/
theorem claim_c4_unsupported_backend_witness :
    (∀ c ∈ "XML".data, c.toNat < 128) ∧
    ¬("XML".data.map Char.toUpper = "SQL".data ∨
        "XML".data.map Char.toUpper = "MONGODB".data ∨
        "XML".data.map Char.toUpper = "ORM".data ∨
        "XML".data.map Char.toUpper = "ELASTICSEARCH".data) ∧
    (generate_query "A".data "XML".data =
      "Invalid query type request. SQL, MONGODB, and ORM are only currently accepted query types".data ∧
    containsSeq "SQL".data
      "Invalid query type request. SQL, MONGODB, and ORM are only currently accepted query types".data = true ∧
    containsSeq "MONGODB".data
      "Invalid query type request. SQL, MONGODB, and ORM are only currently accepted query types".data = true ∧
    containsSeq "ORM".data
      "Invalid query type request. SQL, MONGODB, and ORM are only currently accepted query types".data = true ∧
    containsSeq "ELASTICSEARCH".data
      "Invalid query type request. SQL, MONGODB, and ORM are only currently accepted query types".data = false) :=
  ⟨by decide, by decide,
    claim_c4_unsupported_backend "A".data "XML".data (by decide) (by decide)⟩

/-- Claim C3 counterexample: the claim fails in two ways.  The top-level
operand is not trimmed — `create_exp_tree " Java "` keeps the surrounding
spaces in the leaf value — and for the SQL backend the emitted query is not
the leaf clause merely wrapped in the envelope: the slice `[1:-1]` removes
the clause's leading space and its closing quote. -/
theorem claim_c3_counterexample :
    create_exp_tree " Java ".data =
      Node.mk " Java ".data Node.none Node.none ∧
    pyStrip " Java ".data = "Java".data ∧
    " Java ".data ≠ "Java".data ∧
    create_query (Node.mk "Java".data Node.none Node.none) "SQL".data ≠
      "SELECT * FROM Resume WHERE ".data ++
        inorder (Node.mk "Java".data Node.none Node.none) := by
  exact ⟨by decide, by decide, by decide, by decide⟩

/-- Claim C3 (amended): a single-operand expression (no `|` or `&` in it)
parses to one leaf whose value is the text as given (trimming happens only
when an operand is cut out at an operator, not at top level), and the
MONGODB, ORM and ELASTICSEARCH queries are exactly one clause in the
backend envelope, while the SQL query loses the first and last characters of
its single clause (its leading space and closing quote) to the `[1:-1]`
slice. -/
theorem claim_c3_single_operand (v : List Char) (h1 : '|' ∉ v) (h2 : '&' ∉ v) :
    create_exp_tree v = Node.mk v Node.none Node.none ∧
    create_query (Node.mk v Node.none Node.none) "SQL".data =
      "SELECT * FROM Resume WHERE text like '%".data ++ v ++ "%".data ∧
    create_query (Node.mk v Node.none Node.none) "MONGODB".data =
      "\x7b\x7b\"text\" : /.*".data ++ v ++ ".*/i\x7d\x7d".data ∧
    create_query (Node.mk v Node.none Node.none) "ORM".data =
      "text__icontains='".data ++ v ++ "'".data ∧
    create_query (Node.mk v Node.none Node.none) "ELASTICSEARCH".data =
      " \"query\": \x7b\"match\" : \x7b \"text\" : \x7b\"".data ++ v ++
        "\"\x7d \x7d ".data := by
  refine ⟨create_exp_tree_of_no_op ?_, ?_, ?_, ?_, ?_⟩
  · rintro (hm | hm)
    exacts [h1 hm, h2 hm]
  · rw [create_query_SQL]
    have hd : ((inorder (Node.mk v Node.none Node.none)).drop 1) =
        "text like '%".data ++ v ++ "%'".data := rfl
    rw [hd, show ("%'".data : List Char) = ['%'] ++ ['\''] from rfl,
      ← List.append_assoc, List.dropLast_concat]
    rw [sqlSubst_append, sqlSubst_append, sqlSubst_of_no_op h1 h2,
      show sqlSubst "text like '%".data = "text like '%".data from by decide,
      show sqlSubst ['%'] = ['%'] from by decide]
    simp [List.append_assoc]
  · rw [create_query_MONGODB,
      show preorder (Node.mk v Node.none Node.none) =
        "\x7b\"text\" : /.*".data ++ v ++ ".*/i\x7d".data from rfl,
      sqlSubst_append, sqlSubst_append, sqlSubst_of_no_op h1 h2,
      show sqlSubst "\x7b\"text\" : /.*".data = "\x7b\"text\" : /.*".data
        from by decide,
      show sqlSubst ".*/i\x7d".data = ".*/i\x7d".data from by decide]
    simp [List.append_assoc]
  · rw [create_query_ORM,
      show inorder_orm (Node.mk v Node.none Node.none) =
        "text__icontains='".data ++ v ++ "'".data from rfl,
      replaceChar_append, replaceChar_append, replaceChar_of_not_mem _ h2,
      show replaceChar '&' ",".data "text__icontains='".data =
        "text__icontains='".data from by decide,
      show replaceChar '&' ",".data "'".data = "'".data from by decide]
  · rw [create_query_ES,
      show preorder_elasticsearch (Node.mk v Node.none Node.none) =
        "\x7b\"match\" : \x7b \"text\" : \x7b\"".data ++ v ++
          "\"\x7d \x7d ".data from rfl,
      esSubst_append, esSubst_append, esSubst_of_no_op h1 h2,
      show esSubst "\x7b\"match\" : \x7b \"text\" : \x7b\"".data =
        "\x7b\"match\" : \x7b \"text\" : \x7b\"".data from by decide,
      show esSubst "\"\x7d \x7d ".data = "\"\x7d \x7d ".data from by decide]
    simp [List.append_assoc]

/-- Claim C3 witness: the single operand `Java` at each of the four
backends. -/
theorem claim_c3_single_operand_witness :
    '|' ∉ "Java".data ∧ '&' ∉ "Java".data ∧
    (create_exp_tree "Java".data =
      Node.mk "Java".data Node.none Node.none ∧
    create_query (Node.mk "Java".data Node.none Node.none) "SQL".data =
      "SELECT * FROM Resume WHERE text like '%".data ++ "Java".data ++
        "%".data ∧
    create_query (Node.mk "Java".data Node.none Node.none) "MONGODB".data =
      "\x7b\x7b\"text\" : /.*".data ++ "Java".data ++ ".*/i\x7d\x7d".data ∧
    create_query (Node.mk "Java".data Node.none Node.none) "ORM".data =
      "text__icontains='".data ++ "Java".data ++ "'".data ∧
    create_query (Node.mk "Java".data Node.none Node.none)
        "ELASTICSEARCH".data =
      " \"query\": \x7b\"match\" : \x7b \"text\" : \x7b\"".data ++
        "Java".data ++ "\"\x7d \x7d ".data) :=
  ⟨by decide, by decide,
    claim_c3_single_operand "Java".data (by decide) (by decide)⟩

/-- Claim C7 counterexample: for a single-leaf tree the relational body has
no outer parenthesis pair, yet the emitter still removes the first and last
characters, so the result is not the envelope around the in-order body. -/
theorem claim_c7_counterexample :
    create_query (Node.mk "Java".data Node.none Node.none) "SQL".data =
      "SELECT * FROM Resume WHERE text like '%Java%".data ∧
    containsSeq "(".data (inorder (Node.mk "Java".data Node.none Node.none)) =
      false ∧
    create_query (Node.mk "Java".data Node.none Node.none) "SQL".data ≠
      "SELECT * FROM Resume WHERE ".data ++
        inorder (Node.mk "Java".data Node.none Node.none) := by
  exact ⟨by decide, by decide, by decide⟩

/-- Claim C7 (amended): the relational emitter renders in-order — an operator
node as `(<left> <OP> <right>)` with the literal `AND`/`OR` keyword and a
leaf as a ` text like '%<operand>%'` predicate — and the emitted body always
loses its first and last character, which for an operator-rooted tree is
exactly the outermost redundant parenthesis pair (for a leaf-rooted tree it
instead truncates the predicate, see the counterexample). -/
theorem claim_c7_sql_render (v : List Char) (l r : Node) (h : l ≠ Node.none) :
    create_query (Node.mk v l r) "SQL".data =
      "SELECT * FROM Resume WHERE ".data ++ sqlRender l ++ " ".data ++
        sqlSubst v ++ " ".data ++ sqlRender r := by
  cases l with
  | none => exact absurd rfl h
  | mk lv ll lr =>
    rw [create_query_SQL]
    have hdrop : ((inorder (Node.mk v (Node.mk lv ll lr) r)).drop 1) =
        inorder (Node.mk lv ll lr) ++ " ".data ++ v ++ " ".data ++
          inorder r ++ ")".data := rfl
    rw [hdrop, show (")".data : List Char) = [')'] from rfl,
      List.dropLast_concat]
    rw [sqlSubst_append, sqlSubst_append, sqlSubst_append, sqlSubst_append,
      sqlSubst_inorder, sqlSubst_inorder,
      show sqlSubst " ".data = " ".data from by decide]
    simp [List.append_assoc]

/-- Claim C7 witness: the tree of `(Java AND Spring) OR (Python AND Django)`
has its outer parentheses stripped — the body is the two AND-groups joined
by OR. -/
theorem claim_c7_sql_render_witness :
    (Node.mk "&".data (Node.mk "Java".data Node.none Node.none)
        (Node.mk "Spring".data Node.none Node.none) ≠ Node.none) ∧
    create_query (Node.mk "|".data
        (Node.mk "&".data (Node.mk "Java".data Node.none Node.none)
          (Node.mk "Spring".data Node.none Node.none))
        (Node.mk "&".data (Node.mk "Python".data Node.none Node.none)
          (Node.mk "Django".data Node.none Node.none))) "SQL".data =
      "SELECT * FROM Resume WHERE ".data ++
        sqlRender (Node.mk "&".data (Node.mk "Java".data Node.none Node.none)
          (Node.mk "Spring".data Node.none Node.none)) ++ " ".data ++
        sqlSubst "|".data ++ " ".data ++
        sqlRender (Node.mk "&".data (Node.mk "Python".data Node.none Node.none)
          (Node.mk "Django".data Node.none Node.none)) :=
  ⟨by decide,
    claim_c7_sql_render "|".data
      (Node.mk "&".data (Node.mk "Java".data Node.none Node.none)
        (Node.mk "Spring".data Node.none Node.none))
      (Node.mk "&".data (Node.mk "Python".data Node.none Node.none)
        (Node.mk "Django".data Node.none Node.none)) (by decide)⟩

set_option maxRecDepth 100000 in
/-- Claim C5 (code behaviour at the claimed input): the document-store
emitter does not produce the claimed `\x7b "$<OP>": [...] \x7d` structure
with lowercase keys — it splices the bare text ` $OR : [...]` / ` $AND :
[...]` with UPPERCASE, unquoted keys and no braces around nested operator
forms; only the top level is wrapped in one brace pair.  The lowercase keys
`$or` / `$and` never occur. -/
theorem claim_c5_mongo_emission :
    generate_query "(Java AND Spring) OR (Python AND Django)".data
        "MONGODB".data =
      "\x7b $OR : [ $AND : [\x7b\"text\" : /.*Java.*/i\x7d, \x7b\"text\" : /.*Spring.*/i\x7d],  $AND : [\x7b\"text\" : /.*Python.*/i\x7d, \x7b\"text\" : /.*Django.*/i\x7d]]\x7d".data ∧
    containsSeq "$or".data
      (generate_query "(Java AND Spring) OR (Python AND Django)".data
        "MONGODB".data) = false ∧
    containsSeq "$and".data
      (generate_query "(Java AND Spring) OR (Python AND Django)".data
        "MONGODB".data) = false ∧
    containsSeq " $OR : [".data
      (generate_query "(Java AND Spring) OR (Python AND Django)".data
        "MONGODB".data) = true ∧
    containsSeq " $AND : [".data
      (generate_query "(Java AND Spring) OR (Python AND Django)".data
        "MONGODB".data) = true := by
  exact ⟨by decide, by decide, by decide, by decide, by decide⟩

set_option maxRecDepth 100000 in
/-- Claim C6 (code behaviour at the claimed input): the search-DSL emitter
does not use the lowercase combinator keys `must`/`should` — the `&`/`|`
symbols are replaced by the UPPERCASE quoted tokens `"MUST"`/`"SHOULD"`, and
the leaf form wraps the operand in an extra brace pair while dropping a
closing brace. -/
theorem claim_c6_es_emission :
    generate_query "(Java AND Spring) OR (Python AND Django)".data
        "ELASTICSEARCH".data =
      " \"query\":  \x7b \"bool\" : \x7b \"SHOULD\" : [ \x7b \"bool\" : \x7b \"MUST\" : [\x7b\"match\" : \x7b \"text\" : \x7b\"Java\"\x7d \x7d , \x7b\"match\" : \x7b \"text\" : \x7b\"Spring\"\x7d \x7d ]\x7d \x7d,  \x7b \"bool\" : \x7b \"MUST\" : [\x7b\"match\" : \x7b \"text\" : \x7b\"Python\"\x7d \x7d , \x7b\"match\" : \x7b \"text\" : \x7b\"Django\"\x7d \x7d ]\x7d \x7d]\x7d \x7d".data ∧
    containsSeq "should".data
      (generate_query "(Java AND Spring) OR (Python AND Django)".data
        "ELASTICSEARCH".data) = false ∧
    containsSeq "must".data
      (generate_query "(Java AND Spring) OR (Python AND Django)".data
        "ELASTICSEARCH".data) = false ∧
    containsSeq "\"SHOULD\"".data
      (generate_query "(Java AND Spring) OR (Python AND Django)".data
        "ELASTICSEARCH".data) = true ∧
    containsSeq "\"MUST\"".data
      (generate_query "(Java AND Spring) OR (Python AND Django)".data
        "ELASTICSEARCH".data) = true := by
  exact ⟨by decide, by decide, by decide, by decide, by decide⟩
